import Mathlib

/-!
# Verification of the auto-homelab configuration acquisition engine

A shallow embedding of the schema-driven `.env` generation pipeline:
the `Validator` assertions, the `Printer` text wrapping and dotenv
escaping, the `EnvVar` serialization, the per-type value strategies
(`CONSTANT`, `GENERATED`, `IP`, `STRING`, `PATH`), the two schema
parsers (`app/configure.py` and the adapter-based `scripts/configure.py`),
and the `DotenvBuilder`.

Strings are Lean `String`s; Python string primitives (`strip`, `upper`,
`splitlines`, `expandtabs`, `int(...)`, single-character `replace`) are
modelled explicitly over the character lists.  Whitespace is the ASCII
whitespace recognised by `Char.isWhitespace`; the repository only feeds
ASCII schema text through these paths.
-/

set_option autoImplicit false

deriving instance DecidableEq for Except

/-- ASCII whitespace test used by every Python `strip`/split model. -/
def isWS (c : Char) : Bool := c.isWhitespace

/-- Characters of `str.strip()`: drop whitespace from both ends of a list. -/
def stripL (l : List Char) : List Char :=
  ((l.dropWhile isWS).reverse.dropWhile isWS).reverse

/-- Model of Python `str.strip()` (ASCII whitespace). -/
def pyStrip (s : String) : String := ⟨stripL s.data⟩

/-- Characters of `str.rstrip()`: drop trailing whitespace. -/
def rstripL (l : List Char) : List Char :=
  (l.reverse.dropWhile isWS).reverse

/-- Model of Python `str.rstrip()` (ASCII whitespace). -/
def pyRstrip (s : String) : String := ⟨rstripL s.data⟩

/-- Model of Python `str.upper()` on ASCII text. -/
def pyUpper (s : String) : String := ⟨s.data.map Char.toUpper⟩

/-- Join a list of strings with newlines: Python `"\n".join(parts)`. -/
def sjoin (parts : List String) : String := String.intercalate "\n" parts

/-- Line-break characters recognised by Python `str.splitlines()`
(`\r\n` is consumed as a single break by the caller below). -/
def isLineBreak (c : Char) : Bool :=
  c = '\n' ∨ c = '\r' ∨ c = '\x0b' ∨ c = '\x0c' ∨
  c = '\x1c' ∨ c = '\x1d' ∨ c = '\x1e' ∨ c = '\x85' ∨
  c = ' ' ∨ c = ' '

/-- Collapse the two-character `\r\n` break into a single `\n` so that
`splitLinesGo` can treat every break as one character. -/
def normNewlines : List Char → List Char
  | '\r' :: '\n' :: cs => '\n' :: normNewlines cs
  | c :: cs => c :: normNewlines cs
  | [] => []

/-- Worker for `pySplitLines`: accumulates the current line (reversed). -/
def splitLinesGo (acc : List Char) : List Char → List (List Char)
  | [] => if acc = [] then [] else [acc.reverse]
  | c :: cs =>
    if isLineBreak c then acc.reverse :: splitLinesGo [] cs
    else splitLinesGo (c :: acc) cs

/-- Model of Python `str.splitlines()`: no trailing empty line, `\r\n`
counts as one break, `""` gives `[]`. -/
def pySplitLines (s : String) : List String :=
  (splitLinesGo [] (normNewlines s.data)).map (fun l => ⟨l⟩)

/-- Model of Python `str.expandtabs(8)`: a tab becomes spaces up to the
next multiple-of-8 column; `\n`/`\r` reset the column. -/
def expandTabsGo (col : Nat) : List Char → List Char
  | [] => []
  | c :: cs =>
    if c = '\t' then
      List.replicate (8 - col % 8) ' ' ++ expandTabsGo (col + (8 - col % 8)) cs
    else if c = '\n' ∨ c = '\r' then
      c :: expandTabsGo 0 cs
    else
      c :: expandTabsGo (col + 1) cs

/-- Model of Python `str.replace('"', '\\"')`: a single-character needle
replaces character-by-character, every other character passes through. -/
def escDQ (s : String) : String :=
  ⟨s.data.flatMap (fun c => if c = '"' then ['\\', '"'] else [c])⟩

/-- `Validator.validate_string` on a value statically known to be a
string: errors iff the string is empty after stripping. -/
def validateStringS (value name : String) : Except String Unit :=
  if pyStrip value = "" then .error (name ++ " must be a non-empty string.")
  else .ok ()

/-- `Printer.format_dotenv_key_value` (`src/app/printer.py:46`):
validates the key, escapes double quotes in the value (a `None` value
becomes the empty string), and renders `KEY="VALUE"` with the key
stripped. -/
def formatDotenvKeyValue (key : String) (value : Option String) : Except String String :=
  match validateStringS key "key" with
  | .error e => .error e
  | .ok _ => .ok (pyStrip key ++ "=\"" ++ escDQ (value.getD "") ++ "\"")

/-- Split a character list into the alternating maximal runs of
whitespace and non-whitespace characters, the chunks that CPython
`textwrap` wraps.  (CPython's default `break_on_hyphens` additionally
splits hyphenated words; no description handled by this repository
contains hyphenated words followed by wrapping-relevant boundaries, and
none of the theorems below quantifies over such inputs.) -/
def chunksGo (cls : Bool) (acc : List Char) : List Char → List (List Char)
  | [] => [acc.reverse]
  | c :: cs =>
    if isWS c = cls then chunksGo cls (c :: acc) cs
    else acc.reverse :: chunksGo (isWS c) [c] cs

/-- Chunks of a paragraph (empty input gives no chunks). -/
def chunksOf : List Char → List (List Char)
  | [] => []
  | c :: cs => chunksGo (isWS c) [c] cs

/-- The `while chunks` inner loop of CPython `textwrap._wrap_chunks`:
take chunks while they fit in `width`, returning the taken chunks, the
accumulated length, and the remaining chunks. -/
def takeChunks (width : Nat) : Nat → List (List Char) → List (List Char) → List (List Char) × Nat × List (List Char)
  | curLen, acc, [] => (acc.reverse, curLen, [])
  | curLen, acc, c :: cs =>
    if curLen + c.length ≤ width then takeChunks width (curLen + c.length) (c :: acc) cs
    else (acc.reverse, curLen, c :: cs)

/-- One iteration of the outer `_wrap_chunks` loop: fill one line,
splitting a chunk longer than the whole width at the remaining space
(`_handle_long_word` with `break_long_words=True`). -/
def buildLine (width : Nat) (chunks : List (List Char)) : List Char × List (List Char) :=
  match takeChunks width 0 [] chunks with
  | (taken, _, []) => (taken.flatten, [])
  | (taken, curLen, c :: cs) =>
    if width < c.length then
      let spaceLeft := if width < 1 then 1 else width - curLen
      ((taken ++ [c.take spaceLeft]).flatten, c.drop spaceLeft :: cs)
    else
      (taken.flatten, c :: cs)

/-- The outer `_wrap_chunks` loop (`drop_whitespace=False`, no indents,
no `max_lines`).  `fuel` bounds the iteration count; every iteration
consumes at least one character, so `totalChars + 1` fuel is exact. -/
def wrapChunks (width : Nat) : Nat → List (List Char) → List (List Char)
  | _, [] => []
  | 0, _ :: _ => []
  | fuel + 1, c :: cs =>
    let r := buildLine width (c :: cs)
    if r.1 = [] then wrapChunks width fuel r.2
    else r.1 :: wrapChunks width fuel r.2

/-- CPython `textwrap.wrap(paragraph, width, replace_whitespace=False,
drop_whitespace=False)` as called by `Printer.wrap_lines`: tabs are
expanded (default `expand_tabs=True`, tabsize 8), the paragraph is
chunked, and chunks are packed into lines. -/
def textwrapWrap (p : String) (width : Nat) : List String :=
  let chars := expandTabsGo 0 p.data
  (wrapChunks width (chars.length + 1) (chunksOf chars)).map (fun l => ⟨l⟩)

/-- The per-paragraph body of `Printer.wrap_lines`
(`src/app/printer.py:20`): an empty paragraph gives one blank line, a
paragraph whose wrap comes back empty still gives one blank line. -/
def paraLines (p : String) (width : Nat) : List String :=
  if p = "" then [""]
  else
    let wrapped := textwrapWrap p width
    if wrapped = [] then [""] else wrapped

/-- `Printer.wrap_lines` (`src/app/printer.py:10`): `None`, empty and
whitespace-only input give `[""]`; otherwise each `splitlines`
paragraph is wrapped independently. -/
def wrapLines (text : Option String) (width : Nat) : List String :=
  match text with
  | none => [""]
  | some t =>
    if pyStrip t = "" then [""]
    else (pySplitLines t).flatMap (fun p => paraLines p width)

/-- The comment lines contributed by a variable description in
`EnvVar.get_dotenv_value` (`src/app/env_vars.py:32`): absent
descriptions contribute nothing, present ones (even `""`) one `# `
prefixed line per wrapped line. -/
def descCommentLines (desc : Option String) : List String :=
  match desc with
  | none => []
  | some d => (wrapLines (some d) 120).map (fun l => "# " ++ l)

/-- `EnvVar.get_dotenv_value` (`src/app/env_vars.py:29`): comment lines
for the description when it is not `None`, then `KEY="VALUE"` for a
present value or bare `NAME=` for an absent one, joined by newlines. -/
def getDotenvValue (name : String) (desc : Option String) (value : Option String) : Except String String :=
  match value with
  | some v =>
    match formatDotenvKeyValue name (some v) with
    | .error e => .error e
    | .ok line => .ok (sjoin (descCommentLines desc ++ [line]))
  | none => .ok (sjoin (descCommentLines desc ++ [name ++ "="]))

/-- `DotenvBuilder._add_var` (`src/scripts/configuration/configure.py:81`):
unlike `get_dotenv_value` the description (a `str` field there) is
always wrapped into comment lines, then the value line follows. -/
def addVarLines (name : String) (desc : String) (value : Option String) : Except String (List String) :=
  let comments := (wrapLines (some desc) 120).map (fun l => "# " ++ l)
  match value with
  | some v =>
    match formatDotenvKeyValue name (some v) with
    | .error e => .error e
    | .ok line => .ok (comments ++ [line])
  | none => .ok (comments ++ [name ++ "="])

/-- The 120-character separator line `"#" * 120`. -/
def sep120 : String := ⟨List.replicate 120 '#'⟩

/-- The optional description comment line of a section header
(`if section.description:` — Python truthiness, so `None` and `""`
both emit nothing). -/
def sectionDescLine (desc : Option String) : List String :=
  match desc with
  | some d => if d = "" then [] else ["# " ++ d]
  | none => []

/-- `DotenvBuilder.add_section` (`src/scripts/configuration/configure.py:91`
and `src/app/configure.py:75`): separator, section name comment,
optional single unwrapped description comment, separator, the variable
lines, and a trailing blank line. -/
def addSectionLines (name : String) (desc : Option String) (varLines : List String) : List String :=
  [sep120] ++ ["# " ++ name] ++ sectionDescLine desc ++ [sep120] ++ varLines ++ [""]

/-- Digit-run parser of Python `int(str)`: digits with single
underscores allowed strictly between digits.  `acc` carries the value
so far; `expectDigit` is true when the previous character was an
underscore (or at the start). -/
def pyDigitsGo (acc : Nat) (expectDigit : Bool) : List Char → Option Nat
  | [] => if expectDigit then none else some acc
  | c :: cs =>
    if c.isDigit then pyDigitsGo (acc * 10 + (c.toNat - 48)) false cs
    else if c = '_' then
      if expectDigit then none else pyDigitsGo acc true cs
    else none

/-- Model of Python `int(s)` on an already-stripped ASCII string:
optional sign, then a non-empty digit run with optional single
underscores between digits. -/
def pyInt (s : String) : Option Int :=
  match s.data with
  | '+' :: rest => (pyDigitsGo 0 true rest).map (fun n => (n : Int))
  | '-' :: rest => (pyDigitsGo 0 true rest).map (fun n => -(n : Int))
  | rest => (pyDigitsGo 0 true rest).map (fun n => (n : Int))

/-- Characters of Python `s.split(':', 1)`: `none` when the separator
is absent (one-element split), otherwise the parts before and after the
first colon. -/
def splitOnceColonL : List Char → Option (List Char × List Char)
  | [] => none
  | c :: cs =>
    if c = ':' then some ([], cs)
    else
      match splitOnceColonL cs with
      | some (a, b) => some (c :: a, b)
      | none => none

/-- Python `s.split(':', 1)` folded to an `Option`: `some (before, after
first colon)` or `none` when there is no colon. -/
def splitOnceColon (s : String) : Option (String × String) :=
  (splitOnceColonL s.data).map (fun p => (⟨p.1⟩, ⟨p.2⟩))

/-- `string.ascii_letters + string.digits`, the `ALPHA` pool. -/
def alphaPool : String :=
  "abcdefghijklmnopqrstuvwxyzABCDEFGHIJKLMNOPQRSTUVWXYZ0123456789"

/-- `ALPHA` plus the literal symbol set, the `ALL` pool. -/
def allPool : String := alphaPool ++ "%&*+-.:<>^_|~"

/-- Charset-name to pool lookup (`charset_pools[...]`; the name is
guaranteed to be `"ALL"` or `"ALPHA"` at every use site). -/
def poolOf (cs : String) : String := if cs = "ALL" then allPool else alphaPool

/-- The `try` block of the `GENERATED` spec parse
(`src/app/env_vars.py:90` and `GeneratedStrategy.acquire`,
`src/scripts/configuration/env_vars.py:105`): `some (charset, length)`
when every validation passes, `none` when any step raises (null or
blank spec, missing colon, unknown charset, non-integer length, length
outside `1..1024`). -/
def parseGeneratedSpec (spec : Option String) : Option (String × Nat) :=
  match spec with
  | none => none
  | some s =>
    if pyStrip s = "" then none
    else
      match splitOnceColon s with
      | none => none
      | some (a, b) =>
        let rawSet := pyUpper (pyStrip a)
        if rawSet = "ALL" ∨ rawSet = "ALPHA" then
          match pyInt (pyStrip b) with
          | some n => if n ≤ 0 ∨ 1024 < n then none else some (rawSet, n.toNat)
          | none => none
        else none

/-- `"".join(secrets.choice(pool) for _ in range(length))`: the random
draws are modelled by an `oracle` giving one arbitrary natural per
position; `secrets.choice` returns a member of the pool, which the
modulus guarantees here. -/
def genFrom (pool : List Char) (oracle : Nat → Nat) (length : Nat) : List Char :=
  (List.range length).map (fun i => pool.getD (oracle i % pool.length) 'a')

/-- The `GENERATED` arm of `get_value_for_type`
(`src/app/env_vars.py:81-109`): parse the spec, fall back to
`ALPHA:32`, then draw that many characters from the pool. -/
def genValue (spec : Option String) (oracle : Nat → Nat) : String :=
  let p := (parseGeneratedSpec spec).getD ("ALPHA", 32)
  ⟨genFrom (poolOf p.1).data oracle p.2⟩

/-- Python truthiness of `os.environ.get(var_name)`: `some v` when the
table holds a non-empty value, `none` when the key is absent or empty. -/
def envTruthy (env : String → Option String) (name : String) : Option String :=
  match env name with
  | some v => if v = "" then none else some v
  | none => none

/-- `ConstantStrategy.acquire`
(`src/scripts/configuration/env_vars.py:79-84`) and the `CONSTANT` arm
of `get_value_for_type` (`src/app/env_vars.py:77-80`): validate the
spec is a string or null (always true of an `Option String`) and return
it verbatim — including `none`. -/
def constantAcquire (spec : Option String) : Except String (Option String) :=
  .ok spec

/-- `GeneratedStrategy.acquire`
(`src/scripts/configuration/env_vars.py:98-126`): short-circuit on a
truthy environment value, else generate. -/
def scriptsGenerated (env : String → Option String) (name : String)
    (spec : Option String) (oracle : Nat → Nat) : String :=
  match envTruthy env name with
  | some v => v
  | none => genValue spec oracle

/-- The prompt loop of `IpStrategy.acquire`
(`src/scripts/configuration/env_vars.py:134-140`): keep prompting
(each entry is stripped by `_prompt`) until the IP validator accepts;
`none` models the loop still awaiting input when the modelled entries
run out.  `validIp` abstracts the external `ipaddress.ip_address`
literal check. -/
def ipLoop (validIp : String → Bool) : List String → Option String
  | [] => none
  | i :: rest =>
    let u := pyStrip i
    if validIp u then some u else ipLoop validIp rest

/-- `IpStrategy.acquire` (`src/scripts/configuration/env_vars.py:130`):
environment short-circuit, then the prompt loop. -/
def ipAcquire (env : String → Option String) (validIp : String → Bool)
    (name : String) (inputs : List String) : Option String :=
  match envTruthy env name with
  | some v => some v
  | none => ipLoop validIp inputs

/-- The prompt loop of `StringStrategy.acquire`
(`src/scripts/configuration/env_vars.py:148-154`): accept the first
entry that is non-blank after stripping. -/
def stringLoop : List String → Option String
  | [] => none
  | i :: rest =>
    let u := pyStrip i
    if pyStrip u = "" then stringLoop rest else some u

/-- `StringStrategy.acquire` (`src/scripts/configuration/env_vars.py:144`). -/
def stringAcquire (env : String → Option String) (name : String)
    (inputs : List String) : Option String :=
  match envTruthy env name with
  | some v => some v
  | none => stringLoop inputs

/-- Abstraction of the filesystem consulted by `PathStrategy.acquire`,
keyed by the entered path string (`expanduser`/`Path` construction and
`resolve()` are folded into the oracle). -/
structure FsInfo where
  found : Bool
  isDir : Bool
  mkdirOk : Bool
  resolved : String
deriving Repr, DecidableEq

/-- The prompt loop of `PathStrategy.acquire`
(`src/scripts/configuration/env_vars.py:162-183`): the blank-input
validation is outside the `try`, so it raises out of the loop; an
existing directory or a successful `mkdir` returns the resolved path,
anything else re-prompts. -/
def pathLoop (fs : String → FsInfo) (name : String) : List String → Except String (Option String)
  | [] => .ok none
  | i :: rest =>
    let u := pyStrip i
    if pyStrip u = "" then .error (name ++ " must be a non-empty string.")
    else
      let info := fs u
      if info.found then
        if info.isDir then .ok (some info.resolved) else pathLoop fs name rest
      else if info.mkdirOk then .ok (some info.resolved)
      else pathLoop fs name rest

/-- `PathStrategy.acquire` (`src/scripts/configuration/env_vars.py:158`). -/
def pathAcquire (env : String → Option String) (fs : String → FsInfo)
    (name : String) (inputs : List String) : Except String (Option String) :=
  match envTruthy env name with
  | some v => .ok (some v)
  | none => pathLoop fs name inputs

/-- Parsed JSON values as Python sees them: objects keep insertion
order, which both schema walks rely on. -/
inductive J where
  | s (v : String)
  | jnull
  | b (v : Bool)
  | n (v : Int)
  | obj (fields : List (String × J))
  | arr (elems : List J)

/-- Normalized variable produced by the schema adapter (`RawVar`,
`src/scripts/configure.py:42`). -/
structure RawVar where
  name : String
  type : String
  description : Option String
  value : Option String
deriving Repr, DecidableEq

/-- Normalized section produced by the schema adapter (`RawSection`,
`src/scripts/configure.py:50`). -/
structure RawSection where
  name : String
  description : Option String
  vars : List RawVar
deriving Repr, DecidableEq

/-- Python `dict.get(key)`: a missing key and a JSON `null` both come
back as `None`, modelled as `J.jnull`. -/
def pyGet (fields : List (String × J)) (key : String) : J :=
  match fields.lookup key with
  | some v => v
  | none => .jnull

/-- `Validator.validate_string` (`src/scripts/validator.py:11`) applied
to a JSON value: only a string that is non-blank after stripping passes. -/
def validateStringJ (value : J) (name : String) : Except String String :=
  match value with
  | .s v => if pyStrip v = "" then .error (name ++ " must be a non-empty string.") else .ok v
  | _ => .error (name ++ " must be a non-empty string.")

/-- `Validator.validate_string_or_none` (`src/scripts/validator.py:21`)
applied to a JSON value. -/
def validateStringOrNoneJ (value : J) (name : String) : Except String (Option String) :=
  match value with
  | .jnull => .ok none
  | .s v => .ok (some v)
  | _ => .error (name ++ " must be a string or null.")

/-- `Validator.validate_dict` (`src/scripts/validator.py:43`) applied to
a JSON value. -/
def validateDictJ (value : J) (name : String) : Except String (List (String × J)) :=
  match value with
  | .obj fields => .ok fields
  | _ => .error (name ++ " must be a dictionary.")

/-- The variable walk of `SchemaAdapter._parse_legacy`
(`src/scripts/configure.py:117-139`): iterate the `variables` mapping
in insertion order, validating each entry fail-fast. -/
def parseLegacyVars (sectionName : String) : List (String × J) → Except String (List RawVar)
  | [] => .ok []
  | (varName, varObj) :: rest => do
    _ ← validateStringS varName ("Section '" ++ sectionName ++ "' variable '" ++ varName)
    let fields ← validateDictJ varObj ("Section '" ++ sectionName ++ "' variable '" ++ varName ++ "'")
    let ty ← validateStringJ (pyGet fields "type")
      ("Section '" ++ sectionName ++ "' variable '" ++ varName ++ "' type")
    let d ← validateStringOrNoneJ (pyGet fields "description")
      ("Section '" ++ sectionName ++ "' variable '" ++ varName ++ "' description")
    let v ← validateStringOrNoneJ (pyGet fields "value")
      ("Section '" ++ sectionName ++ "' variable '" ++ varName ++ "' default value")
    let tail ← parseLegacyVars sectionName rest
    .ok ({ name := varName, type := ty, description := d, value := v } :: tail)

/-- The section walk of `SchemaAdapter._parse_legacy`
(`src/scripts/configure.py:104-144`). -/
def parseLegacySections : List (String × J) → Except String (List RawSection)
  | [] => .ok []
  | (secName, secVal) :: rest => do
    _ ← validateStringS secName "Section name"
    let fields ← validateDictJ secVal ("Section '" ++ secName ++ "'")
    let d ← validateStringJ (pyGet fields "description") ("Section '" ++ secName ++ "' description")
    let varFields ← validateDictJ (pyGet fields "variables") ("Section '" ++ secName ++ "' variables")
    let vars ← parseLegacyVars secName varFields
    let tail ← parseLegacySections rest
    .ok ({ name := secName, description := some d, vars := vars } :: tail)

/-- The variable walk of `SchemaAdapter._parse_proposed`
(`src/scripts/configure.py:170-183`); `idx`/`jdx` are the 1-based
`enumerate` counters that appear in error paths. -/
def parseProposedVars (idx : Nat) : Nat → List J → Except String (List RawVar)
  | _, [] => .ok []
  | jdx, varJ :: rest => do
    let pos := "Section[" ++ toString idx ++ "].variables[" ++ toString jdx ++ "]"
    let fields ← validateDictJ varJ pos
    let nm ← validateStringJ (pyGet fields "name") (pos ++ ".name")
    let ty ← validateStringJ (pyGet fields "type") (pos ++ ".type")
    let d ← validateStringOrNoneJ (pyGet fields "description") (pos ++ ".description")
    let v ← validateStringOrNoneJ (pyGet fields "value") (pos ++ ".value")
    let tail ← parseProposedVars idx (jdx + 1) rest
    .ok ({ name := nm, type := ty, description := d, value := v } :: tail)

/-- `section_obj.get("variables", [])` followed by the list check: a
missing key defaults to the empty list, any non-list raises. -/
def getVariablesNode (fields : List (String × J)) (pos : String) : Except String (List J) :=
  match fields.lookup "variables" with
  | none => .ok []
  | some (.arr xs) => .ok xs
  | some .jnull =>.error (pos ++ ".variables must be an array.")
  | some _ => .error (pos ++ ".variables must be an array.")

/-- The section walk of `SchemaAdapter._parse_proposed`
(`src/scripts/configure.py:157-185`). -/
def parseProposedSections : Nat → List J → Except String (List RawSection)
  | _, [] => .ok []
  | idx, secJ :: rest => do
    let fields ← validateDictJ secJ ("Section at index " ++ toString idx)
    let nm ← validateStringJ (pyGet fields "name") ("Section[" ++ toString idx ++ "].name")
    let d ← validateStringJ (pyGet fields "description") ("Section[" ++ toString idx ++ "].description")
    let varsJ ← getVariablesNode fields ("Section[" ++ toString idx ++ "]")
    let vars ← parseProposedVars idx 1 varsJ
    let tail ← parseProposedSections (idx + 1) rest
    .ok ({ name := nm, description := some d, vars := vars } :: tail)

/-- `SchemaAdapter._parse_proposed` (`src/scripts/configure.py:146`):
optional validated `prefix` override, then the sections array. -/
def parseProposedTop (fields : List (String × J)) : Except String (Option String × List RawSection) := do
  let pfx ←
    match pyGet fields "prefix" with
    | .jnull => Except.ok (none : Option String)
    | v => (validateStringJ v "prefix").map some
  let sectionsNode ←
    match fields.lookup "sections" with
    | none => Except.ok ([] : List J)
    | some (.arr xs) => Except.ok xs
    | some _ => Except.error "'sections' must be an array."
  let secs ← parseProposedSections 1 sectionsNode
  .ok (pfx, secs)

/-- `SchemaAdapter.parse` (`src/scripts/configure.py:94`): dispatch on
the presence of a list-valued `sections` key. -/
def adapterParse (j : J) : Except String (Option String × List RawSection) :=
  match j with
  | .obj fields =>
    match fields.lookup "sections" with
    | some (.arr _) => parseProposedTop fields
    | _ => (parseLegacySections fields).map (fun secs => (none, secs))
  | _ => .error "Unsupported schema root. Expecting an object or an object with 'sections'."

/-- Encode an `Option String` as the JSON value Python would read back
as the same thing through `dict.get`. -/
def optJ : Option String → J
  | none => .jnull
  | some s => .s s

/-- A `RawVar` rendered in the proposed schema shape. -/
def encodeVarProposed (v : RawVar) : J :=
  .obj [("name", .s v.name), ("type", .s v.type),
        ("description", optJ v.description), ("value", optJ v.value)]

/-- A `RawSection` rendered in the proposed schema shape. -/
def encodeSectionProposed (s : RawSection) : J :=
  .obj [("name", .s s.name), ("description", optJ s.description),
        ("variables", .arr (s.vars.map encodeVarProposed))]

/-- A whole proposed-shape schema document. -/
def encodeProposed (pfx : Option String) (secs : List RawSection) : J :=
  .obj [("prefix", optJ pfx), ("sections", .arr (secs.map encodeSectionProposed))]

/-- A `RawVar` rendered as a legacy-shape mapping entry. -/
def encodeVarLegacy (v : RawVar) : String × J :=
  (v.name, .obj [("type", .s v.type), ("description", optJ v.description),
                 ("value", optJ v.value)])

/-- A `RawSection` rendered as a legacy-shape mapping entry. -/
def encodeSectionLegacy (s : RawSection) : String × J :=
  (s.name, .obj [("description", optJ s.description),
                 ("variables", .obj (s.vars.map encodeVarLegacy))])

/-- A whole legacy-shape schema document. -/
def encodeLegacy (secs : List RawSection) : J :=
  .obj (secs.map encodeSectionLegacy)

/-- `true` iff the string is non-blank after stripping. -/
def nonBlank (s : String) : Bool := pyStrip s ≠ ""

/-- Key lists realizable as Python dicts have no duplicates. -/
def nodupKeys : List String → Bool
  | [] => true
  | k :: ks => (!ks.contains k) && nodupKeys ks

/-- Well-formedness of one variable for the shape-independence claim:
name and type pass `validate_string`. -/
def wfVar (v : RawVar) : Bool := nonBlank v.name && nonBlank v.type

/-- Well-formedness of one section: non-blank name, a present non-blank
description, well-formed variables with dict-realizable names. -/
def wfSection (s : RawSection) : Bool :=
  nonBlank s.name &&
  (match s.description with
   | some d => nonBlank d
   | none => false) &&
  s.vars.all wfVar &&
  nodupKeys (s.vars.map RawVar.name)

/-- Well-formedness of the whole logical content. -/
def wfContent (secs : List RawSection) : Bool :=
  secs.all wfSection && nodupKeys (secs.map RawSection.name)

/-- The interactive state of a run: the queue of lines the user will
type, and the number of prompts issued so far. -/
structure PromptState where
  pending : List String
  prompts : Nat
deriving Repr, DecidableEq

/-- A resolved in-memory variable (`EnvVar` after `set_value`). -/
structure MVar where
  name : String
  type : String
  description : Option String
  value : Option String
deriving Repr, DecidableEq

/-- A resolved in-memory section (`EnvVarsSection`). -/
structure MSection where
  name : String
  description : Option String
  vars : List MVar
deriving Repr, DecidableEq

/-- The interactive `while True` loop of `get_value_for_type`
(`src/app/env_vars.py:112-150`): every iteration prompts once (stripped
input), then dispatches on the type tag; an unknown tag raises only
after having prompted.  Exhausting the modelled input queue means the
real loop is still blocked on the user, reported as an error here. -/
def gvLoop (validIp : String → Bool) (fs : String → FsInfo) (varName varType : String) :
    List String → Nat → Except String (Option String) × PromptState
  | [], prompts => (.error "awaiting further input", ⟨[], prompts⟩)
  | i :: rest, prompts =>
    let u := pyStrip i
    let p := prompts + 1
    if varType = "IP" then
      if validIp u then (.ok (some u), ⟨rest, p⟩)
      else gvLoop validIp fs varName varType rest p
    else if varType = "STRING" then
      if pyStrip u = "" then gvLoop validIp fs varName varType rest p
      else (.ok (some u), ⟨rest, p⟩)
    else if varType = "PATH" then
      if pyStrip u = "" then (.error (varName ++ " must be a non-empty string."), ⟨rest, p⟩)
      else
        let info := fs u
        if info.found then
          if info.isDir then (.ok (some info.resolved), ⟨rest, p⟩)
          else gvLoop validIp fs varName varType rest p
        else if info.mkdirOk then (.ok (some info.resolved), ⟨rest, p⟩)
        else gvLoop validIp fs varName varType rest p
    else (.error ("Unsupported TYPE '" ++ varType ++ "' for " ++ varName ++ "."), ⟨rest, p⟩)

/-- `get_value_for_type` (`src/app/env_vars.py:72`): `CONSTANT` and
`GENERATED` never touch the prompt queue, everything else enters the
prompt loop. -/
def appGetValueForType (validIp : String → Bool) (fs : String → FsInfo) (oracle : Nat → Nat)
    (varName varType : String) (varValue : Option String) (st : PromptState) :
    Except String (Option String) × PromptState :=
  if varType = "CONSTANT" then (constantAcquire varValue, st)
  else if varType = "GENERATED" then (.ok (some (genValue varValue oracle)), st)
  else gvLoop validIp fs varName varType st.pending st.prompts

/-- `EnvVar.set_value` (`src/app/env_vars.py:26` and
`src/scripts/configuration/env_vars.py:29`): `value.strip()` — a `None`
value makes the attribute access raise. -/
def setValueOpt (value : Option String) : Except String String :=
  match value with
  | some s => .ok (pyStrip s)
  | none => .error "AttributeError: 'NoneType' object has no attribute 'strip'"

/-- The inner variable loop of `app/configure.py`'s `parse_schema`
(`src/app/configure.py:48-63`): validate one variable, then
immediately resolve it (possibly prompting) before looking at the next
— validation and prompting are interleaved. -/
def appParseVars (validIp : String → Bool) (fs : String → FsInfo) (oracle : Nat → Nat)
    (sectionName secFull : String) :
    List (String × J) → PromptState → Except String (List MVar) × PromptState
  | [], st => (.ok [], st)
  | (varName, varObj) :: rest, st =>
    match validateStringS varName ("Section '" ++ sectionName ++ "' variable '" ++ varName) with
    | .error e => (.error e, st)
    | .ok _ =>
      match validateDictJ varObj ("Section '" ++ sectionName ++ "' variable '" ++ varName ++ "'") with
      | .error e => (.error e, st)
      | .ok fields =>
        match validateStringJ (pyGet fields "type")
            ("Section '" ++ sectionName ++ "' variable '" ++ varName ++ "' type") with
        | .error e => (.error e, st)
        | .ok ty =>
          match validateStringOrNoneJ (pyGet fields "description")
              ("Section '" ++ sectionName ++ "' variable '" ++ varName ++ "' description") with
          | .error e => (.error e, st)
          | .ok d =>
            match validateStringOrNoneJ (pyGet fields "value")
                ("Section '" ++ sectionName ++ "' variable '" ++ varName ++ "' default value") with
            | .error e => (.error e, st)
            | .ok v0 =>
              let fullName := secFull ++ "_" ++ varName
              let initVal := v0.map pyStrip
              match appGetValueForType validIp fs oracle fullName ty initVal st with
              | (.error e, st') => (.error e, st')
              | (.ok acquired, st') =>
                match setValueOpt acquired with
                | .error e => (.error e, st')
                | .ok sv =>
                  match appParseVars validIp fs oracle sectionName secFull rest st' with
                  | (.error e, st'') => (.error e, st'')
                  | (.ok tail, st'') =>
                    (.ok ({ name := fullName, type := ty, description := d,
                            value := some sv } :: tail), st'')

/-- The section loop of `app/configure.py`'s `parse_schema`
(`src/app/configure.py:30-65`). -/
def appParseSections (validIp : String → Bool) (fs : String → FsInfo) (oracle : Nat → Nat) :
    List (String × J) → PromptState → Except String (List MSection) × PromptState
  | [], st => (.ok [], st)
  | (secName, secVal) :: rest, st =>
    match validateStringS secName "Section name" with
    | .error e => (.error e, st)
    | .ok _ =>
      match validateDictJ secVal ("Section '" ++ secName ++ "'") with
      | .error e => (.error e, st)
      | .ok fields =>
        match validateStringJ (pyGet fields "description")
            ("Section '" ++ secName ++ "' description") with
        | .error e => (.error e, st)
        | .ok d =>
          match validateDictJ (pyGet fields "variables")
              ("Section '" ++ secName ++ "' variables") with
          | .error e => (.error e, st)
          | .ok varFields =>
            let secFull := "HOMELAB_" ++ secName
            match appParseVars validIp fs oracle secName secFull varFields st with
            | (.error e, st') => (.error e, st')
            | (.ok vars, st') =>
              match appParseSections validIp fs oracle rest st' with
              | (.error e, st'') => (.error e, st'')
              | (.ok tail, st'') =>
                (.ok ({ name := secFull, description := some d, vars := vars } :: tail), st'')

/-- `app/configure.py`'s `parse_schema` (`src/app/configure.py:25`):
root dictionary check, then the interleaved walk (prefix is the fixed
class attribute `"HOMELAB"`). -/
def appParseSchema (validIp : String → Bool) (fs : String → FsInfo) (oracle : Nat → Nat)
    (j : J) (st : PromptState) : Except String (List MSection) × PromptState :=
  match validateDictJ j "Schema root" with
  | .error e => (.error e, st)
  | .ok fields => appParseSections validIp fs oracle fields st

/-- `TypeHandlerRegistry.get` (`src/scripts/configuration/env_vars.py:204`):
case-insensitive lookup that raises on an unregistered tag before any
strategy runs. -/
def registryGet (typeName : String) : Except String String :=
  let key := pyUpper typeName
  if key = "CONSTANT" ∨ key = "GENERATED" ∨ key = "IP" ∨ key = "STRING" ∨ key = "PATH" then
    .ok key
  else .error ("Unsupported TYPE '" ++ typeName ++ "'.")

/-- Modelled from the spec: the registry-aware `get_value_for_type` of
`scripts/env_vars.py`, which is imported by `src/scripts/configure.py`
but absent from the source tree.  Per the spec's strategy table it
dispatches to the same five strategies as
`src/scripts/configuration/env_vars.py`; the prompting strategies
short-circuit from a truthy environment value and otherwise run the
same loops as the app-tree `get_value_for_type`. -/
def registryAcquire (env : String → Option String) (validIp : String → Bool)
    (fs : String → FsInfo) (oracle : Nat → Nat) (key varName : String)
    (spec : Option String) (st : PromptState) : Except String (Option String) × PromptState :=
  if key = "CONSTANT" then (constantAcquire spec, st)
  else if key = "GENERATED" then (.ok (some (scriptsGenerated env varName spec oracle)), st)
  else
    match envTruthy env varName with
    | some v => (.ok (some v), st)
    | none => gvLoop validIp fs varName key st.pending st.prompts

/-- The resolution loop over one section's variables in
`scripts/configure.py`'s `parse_schema` (`src/scripts/configure.py:247-263`),
running only after the whole schema was adapter-validated. -/
def scriptsResolveVars (env : String → Option String) (validIp : String → Bool)
    (fs : String → FsInfo) (oracle : Nat → Nat) (secFull : String) :
    List RawVar → PromptState → Except String (List MVar) × PromptState
  | [], st => (.ok [], st)
  | v :: rest, st =>
    let fullName := secFull ++ "_" ++ v.name
    match registryGet v.type with
    | .error e => (.error e, st)
    | .ok key =>
      match registryAcquire env validIp fs oracle key fullName v.value st with
      | (.error e, st') => (.error e, st')
      | (.ok acquired, st') =>
        match setValueOpt acquired with
        | .error e => (.error e, st')
        | .ok sv =>
          match scriptsResolveVars env validIp fs oracle secFull rest st' with
          | (.error e, st'') => (.error e, st'')
          | (.ok tail, st'') =>
            (.ok ({ name := fullName, type := v.type, description := v.description,
                    value := some sv } :: tail), st'')

/-- The section resolution loop of `scripts/configure.py`'s
`parse_schema` (`src/scripts/configure.py:236-265`). -/
def scriptsResolveSections (env : String → Option String) (validIp : String → Bool)
    (fs : String → FsInfo) (oracle : Nat → Nat) (pfx : String) :
    List RawSection → PromptState → Except String (List MSection) × PromptState
  | [], st => (.ok [], st)
  | s :: rest, st =>
    let secFull := pfx ++ "_" ++ s.name
    match scriptsResolveVars env validIp fs oracle secFull s.vars st with
    | (.error e, st') => (.error e, st')
    | (.ok vars, st') =>
      match scriptsResolveSections env validIp fs oracle pfx rest st' with
      | (.error e, st'') => (.error e, st'')
      | (.ok tail, st'') =>
        (.ok ({ name := secFull, description := s.description, vars := vars } :: tail), st'')

/-- The effective root prefix after `if prefix_override: root.prefix =
prefix_override` over the spec-documented default `"HOMELAB"` (Python
truthiness: an empty override is ignored). -/
def rootPrefixOf (pfx : Option String) : String :=
  match pfx with
  | some v => if v = "" then "HOMELAB" else v
  | none => "HOMELAB"

/-- `scripts/configure.py`'s `parse_schema` (`src/scripts/configure.py:222`):
the adapter validates the whole document first; only on success does
the resolution walk — the sole place prompts happen — begin. -/
def scriptsParseSchemaRun (env : String → Option String) (validIp : String → Bool)
    (fs : String → FsInfo) (oracle : Nat → Nat) (j : J) (st : PromptState) :
    Except String (List MSection) × PromptState :=
  match adapterParse j with
  | .error e => (.error e, st)
  | .ok (pfx, secs) => scriptsResolveSections env validIp fs oracle (rootPrefixOf pfx) secs st

/-- Fail-fast map over a list in the `Except` monad, preserving order. -/
def exceptMapList {α β : Type} (f : α → Except String β) : List α → Except String (List β)
  | [] => .ok []
  | a :: rest =>
    match f a with
    | .error e => .error e
    | .ok b =>
      match exceptMapList f rest with
      | .error e => .error e
      | .ok tail => .ok (b :: tail)

/-- One variable's dotenv entry in the final document, with the
resolved value supplied by `resolve` (keyed by the full variable name)
and stripped by `set_value`.  Modelled from the spec for the missing
`scripts/env_vars.py` `EnvVar.get_dotenv_value`, which per spec section
4.4 serializes exactly like `src/app/env_vars.py:29`. -/
def buildVarEntry (resolve : String → String) (secFull : String) (v : RawVar) : Except String String :=
  getDotenvValue (secFull ++ "_" ++ v.name) v.description
    (some (pyStrip (resolve (secFull ++ "_" ++ v.name))))

/-- One section's block as emitted by `DotenvBuilder.add_section`
(`src/scripts/configure.py:200-211`): each variable contributes one
already-joined `get_dotenv_value` string. -/
def buildSectionLines (resolve : String → String) (pfx : String) (s : RawSection) :
    Except String (List String) :=
  let secFull := pfx ++ "_" ++ s.name
  match exceptMapList (buildVarEntry resolve secFull) s.vars with
  | .error e => .error e
  | .ok entries => .ok (addSectionLines secFull s.description entries)

/-- `DotenvBuilder.build` over all sections
(`src/scripts/configure.py:213`): join with newlines, strip trailing
whitespace, end with exactly one newline. -/
def buildFromRaw (pfx : String) (secs : List RawSection) (resolve : String → String) :
    Except String String :=
  match exceptMapList (buildSectionLines resolve pfx) secs with
  | .error e => .error e
  | .ok groups => .ok (pyRstrip (sjoin groups.flatten) ++ "\n")

/-- End-to-end document text of `scripts/configure.py` for a given
schema JSON and resolved values: adapter parse, effective prefix, then
the builder. -/
def fullOutput (j : J) (resolve : String → String) : Except String String :=
  match adapterParse j with
  | .error e => .error e
  | .ok (pfx, secs) => buildFromRaw (rootPrefixOf pfx) secs resolve

/-- A schema whose first section is valid and promptable but whose
second section is structurally broken (a string where an object is
required). -/
def badSecondSection : J :=
  .obj [("S1", .obj [("description", .s "d"),
                     ("variables", .obj [("V", .obj [("type", .s "STRING"),
                                                     ("description", .s "dv")])])]),
        ("S2", .s "bad")]

/-- A section with a description longer than the 120-column wrap width. -/
def longDescSection : RawSection :=
  { name := "S", description := some (String.mk (List.replicate 130 'x')), vars := [] }

/-- The spec's end-to-end example schema content: one `CONSTANT`
variable in one section. -/
def sampleSecs : List RawSection :=
  [{ name := "GEN", description := some "d",
     vars := [{ name := "A", type := "CONSTANT", description := some "desc",
                value := some "x" }] }]

theorem sjoin_single (a : String) : sjoin [a] = a := by
  simp [sjoin, String.intercalate, String.intercalate.go]

theorem escDQL_id (l : List Char) (h : ∀ c ∈ l, c ≠ '"') :
    l.flatMap (fun c => if c = '"' then ['\\', '"'] else [c]) = l := by
  induction l with
  | nil => rfl
  | cons c cs ih =>
    simp only [List.flatMap_cons]
    rw [if_neg (h c (by simp)), ih (fun x hx => h x (by simp [hx]))]
    rfl

/-- Claim C8: `format_dotenv_key_value` returns the stripped key, `="`,
the value with every double quote replaced by `\"` and every other
character unchanged, and a closing `"`; a blank key is an error. -/
theorem c8_format_dotenv (key : String) (value : String) :
    (pyStrip key ≠ "" →
      formatDotenvKeyValue key (some value)
        = .ok (pyStrip key ++ "=\""
            ++ String.mk (value.data.flatMap (fun c => if c = '"' then ['\\', '"'] else [c]))
            ++ "\""))
    ∧ (pyStrip key = "" →
      formatDotenvKeyValue key (some value) = .error "key must be a non-empty string.")
    ∧ ((∀ c ∈ value.data, c ≠ '"') → escDQ value = value) := by
  refine ⟨fun h => ?_, fun h => ?_, fun h => ?_⟩
  · simp [formatDotenvKeyValue, validateStringS, h, escDQ]
  · simp [formatDotenvKeyValue, validateStringS, h]
  · cases value with
    | mk data => simp [escDQ, escDQL_id data h]

theorem c8_format_dotenv_witness :
    pyStrip "  K  " ≠ ""
    ∧ formatDotenvKeyValue "  K  " (some "a\"b") = .ok "K=\"a\\\"b\""
    ∧ pyStrip " " = ""
    ∧ formatDotenvKeyValue " " (some "v") = .error "key must be a non-empty string."
    ∧ escDQ "a\\b" = "a\\b" := by
  refine ⟨by decide, ?_, by decide, ?_, ?_⟩
  · exact ((c8_format_dotenv "  K  " "a\"b").1 (by decide)).trans (by decide)
  · exact (c8_format_dotenv " " "v").2.1 (by decide)
  · exact (c8_format_dotenv "" "a\\b").2.2 (by decide)

/-- Claim C1: a resolved variable serializes as `NAME="escaped-value"`
when its value is a present string (including `""`), as bare `NAME=`
when the value is absent, and with no preceding comment line when both
value and description are absent — in `EnvVar.get_dotenv_value` and in
`DotenvBuilder._add_var` (whose description field is always a string). -/
theorem c1_dotenv_value_forms (name : String) (desc : Option String) (d v : String) :
    (pyStrip name ≠ "" →
      getDotenvValue name desc (some v)
        = .ok (sjoin (descCommentLines desc ++ [pyStrip name ++ "=\"" ++ escDQ v ++ "\""])))
    ∧ getDotenvValue name desc none = .ok (sjoin (descCommentLines desc ++ [name ++ "="]))
    ∧ getDotenvValue name none none = .ok (name ++ "=")
    ∧ (pyStrip name ≠ "" →
      addVarLines name d (some v)
        = .ok ((wrapLines (some d) 120).map (fun l => "# " ++ l)
            ++ [pyStrip name ++ "=\"" ++ escDQ v ++ "\""]))
    ∧ addVarLines name d none
        = .ok ((wrapLines (some d) 120).map (fun l => "# " ++ l) ++ [name ++ "="]) := by
  refine ⟨fun h => ?_, rfl, ?_, fun h => ?_, rfl⟩
  · simp [getDotenvValue, formatDotenvKeyValue, validateStringS, h]
  · simp [getDotenvValue, descCommentLines, sjoin_single]
  · simp [addVarLines, formatDotenvKeyValue, validateStringS, h]

theorem c1_dotenv_value_forms_witness :
    getDotenvValue "HAS_VAL" (some "Desc") (some "value") = .ok "# Desc\nHAS_VAL=\"value\""
    ∧ getDotenvValue "NO_DESC_NO_VAL" none none = .ok "NO_DESC_NO_VAL="
    ∧ addVarLines "K" "Desc" (some "") = .ok ["# Desc", "K=\"\""] := by
  refine ⟨?_, (c1_dotenv_value_forms "NO_DESC_NO_VAL" none "" "").2.2.1, ?_⟩
  · exact ((c1_dotenv_value_forms "HAS_VAL" (some "Desc") "" "value").1 (by decide)).trans
      (by decide)
  · exact ((c1_dotenv_value_forms "K" none "Desc" "").2.2.2.1 (by decide)).trans (by decide)

/-- Claim C10: an empty-string description is still a description —
`wrap_lines("")` gives `[""]`, so serialization emits exactly the one
comment line `"# "` before the `NAME=` line, because the guard is an
is-not-`None` test rather than a non-emptiness test. -/
theorem c10_empty_description (name : String) :
    getDotenvValue name (some "") none = .ok (sjoin ["# ", name ++ "="])
    ∧ descCommentLines (some "") = ["# "]
    ∧ descCommentLines none = []
    ∧ getDotenvValue "EMPTY_DESC" (some "") none = .ok "# \nEMPTY_DESC=" := by
  refine ⟨?_, by decide, rfl, by decide⟩
  · simp [getDotenvValue, descCommentLines, wrapLines, pyStrip, stripL]

theorem parseGeneratedSpec_ok {spec : Option String} {cs : String} {len : Nat}
    (h : parseGeneratedSpec spec = some (cs, len)) :
    (cs = "ALL" ∨ cs = "ALPHA") ∧ 1 ≤ len ∧ len ≤ 1024 := by
  unfold parseGeneratedSpec at h
  cases spec with
  | none => simp at h
  | some s =>
    by_cases h1 : pyStrip s = ""
    · simp [h1] at h
    · simp only [h1, if_false] at h
      cases h2 : splitOnceColon s with
      | none => simp [h2] at h
      | some ab =>
        obtain ⟨a, b⟩ := ab
        simp only [h2] at h
        by_cases h3 : pyUpper (pyStrip a) = "ALL" ∨ pyUpper (pyStrip a) = "ALPHA"
        · simp only [h3, if_true] at h
          cases h4 : pyInt (pyStrip b) with
          | none => simp [h4] at h
          | some n =>
            simp only [h4] at h
            by_cases h5 : n ≤ 0 ∨ 1024 < n
            · simp [h5] at h
            · simp only [h5, if_false, Option.some.injEq, Prod.mk.injEq] at h
              push_neg at h5
              obtain ⟨hcs, hlen⟩ := h
              refine ⟨hcs ▸ h3, ?_, ?_⟩ <;> omega
        · simp [h3] at h

theorem poolOf_pos (cs : String) : 0 < (poolOf cs).data.length := by
  by_cases h : cs = "ALL" <;> simp [poolOf, h, allPool, alphaPool]

theorem genFrom_length (pool : List Char) (oracle : Nat → Nat) (n : Nat) :
    (genFrom pool oracle n).length = n := by
  simp [genFrom]

theorem genFrom_mem (pool : List Char) (oracle : Nat → Nat) (n : Nat)
    (hp : 0 < pool.length) : ∀ c ∈ genFrom pool oracle n, c ∈ pool := by
  intro c hc
  simp only [genFrom, List.mem_map] at hc
  obtain ⟨i, _, hi⟩ := hc
  have hlt : oracle i % pool.length < pool.length := Nat.mod_lt _ hp
  rw [← hi, List.getD_eq_getElem pool 'a' hlt]
  exact List.getElem_mem hlt

theorem genValue_spec (spec : Option String) (oracle : Nat → Nat) :
    (genValue spec oracle).length = ((parseGeneratedSpec spec).getD ("ALPHA", 32)).2
    ∧ ∀ c ∈ (genValue spec oracle).data,
        c ∈ (poolOf ((parseGeneratedSpec spec).getD ("ALPHA", 32)).1).data := by
  constructor
  · show (genFrom _ oracle _).length = _
    exact genFrom_length _ _ _
  · exact genFrom_mem _ _ _ (poolOf_pos _)

/-- Claim C2 counterexample: with a non-empty process-environment value
for the variable, `GeneratedStrategy.acquire` returns that value even
though the spec `"ALPHA:5"` parses, so the result length is not 5. -/
theorem c2_counterexample :
    parseGeneratedSpec (some "ALPHA:5") = some ("ALPHA", 5)
    ∧ scriptsGenerated (fun _ => some "xy") "HOMELAB_GEN_SECRET" (some "ALPHA:5")
        (fun _ => 0) = "xy"
    ∧ "xy".length ≠ 5 := ⟨by decide, rfl, by decide⟩

/-- Claim C2 (amended): when the environment value is absent or empty —
and unconditionally in the app-tree `get_value_for_type`, which has no
environment lookup — a parsing `<CHARSET>:<LENGTH>` spec yields exactly
`LENGTH` characters from the requested pool, and any failing spec falls
back to 32 characters from the `ALPHA` pool. -/
theorem c2_generated_lengths (spec : Option String) (oracle : Nat → Nat)
    (env : String → Option String) (name : String) :
    (∀ cs len, parseGeneratedSpec spec = some (cs, len) →
        ((cs = "ALL" ∨ cs = "ALPHA") ∧ 1 ≤ len ∧ len ≤ 1024)
        ∧ (genValue spec oracle).length = len
        ∧ ∀ c ∈ (genValue spec oracle).data, c ∈ (poolOf cs).data)
    ∧ (parseGeneratedSpec spec = none →
        (genValue spec oracle).length = 32
        ∧ ∀ c ∈ (genValue spec oracle).data, c ∈ alphaPool.data)
    ∧ (envTruthy env name = none →
        scriptsGenerated env name spec oracle = genValue spec oracle) := by
  refine ⟨fun cs len h => ?_, fun h => ?_, fun h => ?_⟩
  · refine ⟨parseGeneratedSpec_ok h, ?_, ?_⟩
    · rw [(genValue_spec spec oracle).1, h]; rfl
    · have := (genValue_spec spec oracle).2
      rwa [h] at this
  · have h1 := (genValue_spec spec oracle).1
    have h2 := (genValue_spec spec oracle).2
    rw [h] at h1 h2
    exact ⟨h1, by simpa [poolOf] using h2⟩
  · simp [scriptsGenerated, h]

theorem c2_generated_lengths_witness :
    (genValue (some "ALL:7") (fun _ => 3)).length = 7
    ∧ (genValue (some "BOGUS:7") (fun _ => 3)).length = 32
    ∧ scriptsGenerated (fun _ => none) "N" (some "ALL:7") (fun _ => 3)
        = genValue (some "ALL:7") (fun _ => 3) := by
  refine ⟨?_, ?_, ?_⟩
  · exact ((c2_generated_lengths (some "ALL:7") (fun _ => 3) (fun _ => none) "N").1
      "ALL" 7 (by decide)).2.1
  · exact ((c2_generated_lengths (some "BOGUS:7") (fun _ => 3) (fun _ => none) "N").2.1
      (by decide)).1
  · exact (c2_generated_lengths (some "ALL:7") (fun _ => 3) (fun _ => none) "N").2.2 rfl

/-- Claim C3 counterexample: `CONSTANT` with a null default spec
returns null from both `ConstantStrategy.acquire` and the `CONSTANT`
arm of `get_value_for_type` — the acquisition succeeds with a `None`
value rather than a string. -/
theorem c3_counterexample :
    constantAcquire none = Except.ok none
    ∧ appGetValueForType (fun _ => false) (fun _ => ⟨false, false, false, ""⟩) (fun _ => 0)
        "HOMELAB_GEN_A" "CONSTANT" none ⟨[], 0⟩ = (Except.ok none, ⟨[], 0⟩)
    ∧ (Except.ok none : Except String (Option String)) ≠ Except.ok (some "") :=
  ⟨rfl, rfl, by decide⟩

/-- Claim C3 (amended): `CONSTANT` returns its default spec verbatim —
a string exactly when the spec is a string and null exactly when it is
null (a null is never converted to an empty string); `GENERATED` always
returns a non-empty string. -/
theorem c3_constant_verbatim (spec : Option String) (oracle : Nat → Nat) (st : PromptState)
    (validIp : String → Bool) (fs : String → FsInfo) (name : String) :
    constantAcquire spec = .ok spec
    ∧ appGetValueForType validIp fs oracle name "CONSTANT" spec st = (.ok spec, st)
    ∧ 0 < (genValue spec oracle).length := by
  refine ⟨rfl, rfl, ?_⟩
  rw [(genValue_spec spec oracle).1]
  cases h : parseGeneratedSpec spec with
  | none => simp
  | some p =>
    obtain ⟨cs, len⟩ := p
    have := (parseGeneratedSpec_ok h).2.1
    simp
    omega

/-- Claim C4 counterexample: `IpStrategy.acquire` returns the truthy
environment value verbatim — here not even a valid IP — without
prompting, instead of the first valid entered string. -/
theorem c4_counterexample :
    ipAcquire (fun _ => some "not-an-ip") (fun s => s = "1.2.3.4")
      "HOMELAB_GENERAL_SERVER_IP" ["1.2.3.4"] = some "not-an-ip"
    ∧ ipLoop (fun s => s = "1.2.3.4") ["1.2.3.4"] = some "1.2.3.4"
    ∧ some "not-an-ip" ≠ some "1.2.3.4" := ⟨rfl, by decide, by decide⟩

theorem ipLoop_eq_find (validIp : String → Bool) (inputs : List String) :
    ipLoop validIp inputs = (inputs.map pyStrip).find? validIp := by
  induction inputs with
  | nil => rfl
  | cons i rest ih =>
    simp only [ipLoop, List.map_cons, List.find?]
    by_cases h : validIp (pyStrip i) <;> simp [h, ih]

/-- Claim C4 (amended): `GENERATED`, `IP`, `STRING` and `PATH` all
consult the process environment table and short-circuit on a non-empty
value; only `CONSTANT` never consults it.  When the environment value
is absent or empty, the `IP` strategy returns the first entered string
(stripped) accepted by the IP validator. -/
theorem c4_env_shortcircuit (env : String → Option String) (validIp : String → Bool)
    (fs : String → FsInfo) (oracle : Nat → Nat) (name v : String)
    (spec : Option String) (inputs : List String) :
    (env name = some v → v ≠ "" →
      ipAcquire env validIp name inputs = some v
      ∧ stringAcquire env name inputs = some v
      ∧ pathAcquire env fs name inputs = .ok (some v)
      ∧ scriptsGenerated env name spec oracle = v)
    ∧ (envTruthy env name = none →
      ipAcquire env validIp name inputs = (inputs.map pyStrip).find? validIp)
    ∧ constantAcquire spec = .ok spec := by
  refine ⟨fun he hv => ?_, fun he => ?_, rfl⟩
  · have ht : envTruthy env name = some v := by simp [envTruthy, he, hv]
    exact ⟨by simp [ipAcquire, ht], by simp [stringAcquire, ht],
           by simp [pathAcquire, ht], by simp [scriptsGenerated, ht]⟩
  · rw [ipAcquire, he, ipLoop_eq_find]

theorem c4_env_shortcircuit_witness :
    ipAcquire (fun _ => some "10.0.0.7") (fun _ => false) "N" [] = some "10.0.0.7"
    ∧ stringAcquire (fun _ => some "10.0.0.7") "N" [] = some "10.0.0.7"
    ∧ ipAcquire (fun _ => none) (fun s => s = "1.2.3.4") "N" [" zz ", " 1.2.3.4 "]
        = some "1.2.3.4" := by
  refine ⟨?_, ?_, ?_⟩
  · exact ((c4_env_shortcircuit (fun _ => some "10.0.0.7") (fun _ => false)
      (fun _ => ⟨false, false, false, ""⟩) (fun _ => 0) "N" "10.0.0.7" none []).1 rfl
      (by decide)).1
  · exact ((c4_env_shortcircuit (fun _ => some "10.0.0.7") (fun _ => false)
      (fun _ => ⟨false, false, false, ""⟩) (fun _ => 0) "N" "10.0.0.7" none []).1 rfl
      (by decide)).2.1
  · exact ((c4_env_shortcircuit (fun _ => none) (fun s => s = "1.2.3.4")
      (fun _ => ⟨false, false, false, ""⟩) (fun _ => 0) "N" "" none
      [" zz ", " 1.2.3.4 "]).2.1 rfl).trans (by decide)

/-- Claim C5 counterexample: `app/configure.py`'s `parse_schema`
interleaves validation with prompting — on a schema whose second
section is malformed, the first section's `STRING` variable prompts
(one prompt issued, the queued input consumed) before the structural
error is raised. -/
theorem c5_counterexample :
    appParseSchema (fun _ => false) (fun _ => ⟨false, false, false, ""⟩) (fun _ => 0)
      badSecondSection ⟨["x"], 0⟩ = (.error "Section 'S2' must be a dictionary.", ⟨[], 1⟩)
    ∧ (1 : Nat) ≠ 0 := ⟨by decide, by decide⟩

/-- Claim C5 (amended): in `scripts/configure.py`'s `parse_schema` the
whole document is validated by `SchemaAdapter.parse` before resolution,
so any structural violation aborts the run with the prompt state
untouched — zero prompts issued; the app-tree `parse_schema` instead
interleaves validation with prompting. -/
theorem c5_validation_before_prompts (env : String → Option String) (validIp : String → Bool)
    (fs : String → FsInfo) (oracle : Nat → Nat) (j : J) (st : PromptState) (e : String)
    (h : adapterParse j = .error e) :
    scriptsParseSchemaRun env validIp fs oracle j st = (.error e, st) := by
  unfold scriptsParseSchemaRun
  rw [h]

theorem c5_validation_before_prompts_witness :
    adapterParse badSecondSection = .error "Section 'S2' must be a dictionary."
    ∧ scriptsParseSchemaRun (fun _ => none) (fun _ => false)
        (fun _ => ⟨false, false, false, ""⟩) (fun _ => 0) badSecondSection ⟨["x"], 0⟩
        = (.error "Section 'S2' must be a dictionary.", ⟨["x"], 0⟩) :=
  ⟨by decide,
   c5_validation_before_prompts (fun _ => none) (fun _ => false)
     (fun _ => ⟨false, false, false, ""⟩) (fun _ => 0) badSecondSection ⟨["x"], 0⟩
     "Section 'S2' must be a dictionary." (by decide)⟩

theorem comment_ne_sep (s : String) : "# " ++ s ≠ sep120 := by
  intro h
  have h2 : ("# " ++ s).data = sep120.data := congrArg String.data h
  have h3 : '#' :: ' ' :: s.data = '#' :: '#' :: List.replicate 118 '#' := h2
  simp at h3

theorem empty_ne_sep : "" ≠ sep120 := by decide

/-- Claim C7 (amended): every section block is bracketed by exactly two
120-character `#` separator lines with the full section name as a
comment line between them; a truthy description contributes exactly one
`# `-prefixed comment line containing the raw description text
unwrapped (the builder does not wrap section descriptions). -/
theorem c7_section_layout (name : String) (desc : Option String) (vls : List String) :
    addSectionLines name desc vls
      = sep120 :: ("# " ++ name) :: (sectionDescLine desc ++ sep120 :: (vls ++ [""]))
    ∧ sep120.length = 120
    ∧ (∀ c ∈ sep120.data, c = '#')
    ∧ (addSectionLines name desc vls).count sep120 = 2 + vls.count sep120
    ∧ (sectionDescLine desc).length ≤ 1
    ∧ (∀ d, desc = some d → d ≠ "" → sectionDescLine desc = ["# " ++ d]) := by
  have h1 : (("# " ++ name) == sep120) = false :=
    beq_eq_false_iff_ne.mpr (comment_ne_sep name)
  have h2 : (("" : String) == sep120) = false := beq_eq_false_iff_ne.mpr empty_ne_sep
  refine ⟨by simp [addSectionLines], by decide, by decide, ?_, ?_, ?_⟩
  · cases desc with
    | none =>
      simp [addSectionLines, sectionDescLine, List.count_append, List.count_cons, h1, h2]
      omega
    | some d =>
      by_cases hd : d = ""
      · simp [addSectionLines, sectionDescLine, hd, List.count_append, List.count_cons, h1, h2]
        omega
      · have h3 : (("# " ++ d) == sep120) = false :=
          beq_eq_false_iff_ne.mpr (comment_ne_sep d)
        simp [addSectionLines, sectionDescLine, hd, List.count_append, List.count_cons,
          h1, h2, h3]
        omega
  · cases desc with
    | none => simp [sectionDescLine]
    | some d => by_cases hd : d = "" <;> simp [sectionDescLine, hd]
  · intro d hd hne
    subst hd
    simp [sectionDescLine, hne]

theorem c7_section_layout_witness :
    addSectionLines "HOMELAB_GEN" (some "d") ["HOMELAB_GEN_A=\"x\""]
      = sep120 :: "# HOMELAB_GEN" ::
        (sectionDescLine (some "d") ++ sep120 :: (["HOMELAB_GEN_A=\"x\""] ++ [""]))
    ∧ (addSectionLines "HOMELAB_GEN" (some "d") ["HOMELAB_GEN_A=\"x\""]).count sep120
        = 2 + (["HOMELAB_GEN_A=\"x\""].count sep120)
    ∧ sectionDescLine (some "d") = ["# d"] := by
  refine ⟨(c7_section_layout "HOMELAB_GEN" (some "d") ["HOMELAB_GEN_A=\"x\""]).1, ?_, ?_⟩
  · exact (c7_section_layout "HOMELAB_GEN" (some "d") ["HOMELAB_GEN_A=\"x\""]).2.2.2.1
  · exact ((c7_section_layout "HOMELAB_GEN" (some "d") ["HOMELAB_GEN_A=\"x\""]).2.2.2.2.2
      "d" rfl (by decide)).trans (by decide)

set_option maxRecDepth 8192 in
/-- Claim C7 counterexample: a 130-character section description is
emitted as a single unwrapped comment line; that emitted line is not
among the `# `-prefixed 120-column wrapped lines the claim predicts. -/
theorem c7_counterexample :
    addSectionLines "HOMELAB_S" longDescSection.description []
      = [sep120, "# HOMELAB_S", "# " ++ String.mk (List.replicate 130 'x'), sep120, ""]
    ∧ (wrapLines longDescSection.description 120).map (fun l => "# " ++ l)
      = ["# " ++ String.mk (List.replicate 120 'x'), "# " ++ String.mk (List.replicate 10 'x')]
    ∧ ("# " ++ String.mk (List.replicate 130 'x'))
        ∉ (wrapLines longDescSection.description 120).map (fun l => "# " ++ l) := by
  refine ⟨by decide, by decide, by decide⟩

theorem stripL_nil_ws {l : List Char} (h : stripL l = []) : ∀ c ∈ l, isWS c := by
  unfold stripL at h
  rw [List.reverse_eq_nil_iff] at h
  have h2 : ∀ c ∈ (l.dropWhile isWS).reverse, isWS c := List.dropWhile_eq_nil_iff.mp h
  have h3 : ∀ c ∈ l.dropWhile isWS, isWS c := fun c hc => h2 c (List.mem_reverse.mpr hc)
  intro c hc
  rw [← List.takeWhile_append_dropWhile (p := isWS) (l := l)] at hc
  rcases List.mem_append.mp hc with htk | hdr
  · exact List.mem_takeWhile_imp htk
  · exact h3 c hdr

theorem expandTabsGo_ws {l : List Char} (h : ∀ c ∈ l, isWS c) (col : Nat) :
    (∀ c ∈ expandTabsGo col l, isWS c) ∧ (l ≠ [] → expandTabsGo col l ≠ []) := by
  induction l generalizing col with
  | nil => simp [expandTabsGo]
  | cons c cs ih =>
    have hc : isWS c = true := h c (by simp)
    have hcs : ∀ x ∈ cs, isWS x := fun x hx => h x (by simp [hx])
    have hpos : 0 < 8 - col % 8 := by
      have : col % 8 < 8 := Nat.mod_lt _ (by omega)
      omega
    by_cases ht : c = '\t'
    · refine ⟨fun x hx => ?_, fun _ => ?_⟩
      · simp only [expandTabsGo, ht, if_true, List.mem_append] at hx
        rcases hx with hrep | hrest
        · rw [List.eq_of_mem_replicate hrep]; decide
        · exact (ih hcs _).1 x hrest
      · simp only [expandTabsGo, ht, if_true]
        intro hcontra
        rcases List.append_eq_nil.mp hcontra with ⟨hrep, _⟩
        rw [List.replicate_eq_nil_iff] at hrep
        omega
    · by_cases hn : c = '\n' ∨ c = '\r'
      · refine ⟨fun x hx => ?_, fun _ => by simp [expandTabsGo, ht, hn]⟩
        simp only [expandTabsGo, ht, if_false, hn, if_true, List.mem_cons] at hx
        rcases hx with hx | hx
        · exact hx ▸ hc
        · exact (ih hcs _).1 x hx
      · refine ⟨fun x hx => ?_, fun _ => by simp [expandTabsGo, ht, hn]⟩
        simp only [expandTabsGo, ht, if_false, hn, List.mem_cons] at hx
        rcases hx with hx | hx
        · exact hx ▸ hc
        · exact (ih hcs _).1 x hx

theorem chunksGo_ws (rest : List Char) (acc : List Char) (h : ∀ c ∈ rest, isWS c) :
    chunksGo true acc rest = [acc.reverse ++ rest] := by
  induction rest generalizing acc with
  | nil => simp [chunksGo]
  | cons c cs ih =>
    have hc : isWS c = true := h c (by simp)
    rw [chunksGo, if_pos (by rw [hc]), ih (c :: acc) (fun x hx => h x (by simp [hx]))]
    simp

theorem chunksOf_ws {l : List Char} (hne : l ≠ []) (h : ∀ c ∈ l, isWS c) :
    chunksOf l = [l] := by
  cases l with
  | nil => exact absurd rfl hne
  | cons c cs =>
    have hc : isWS c = true := h c (by simp)
    rw [chunksOf, hc, chunksGo_ws cs [c] (fun x hx => h x (by simp [hx]))]
    rfl

theorem wrapChunks_single (w fuel : Nat) (c : List Char) (hlen : c.length ≤ w) (hc : c ≠ []) :
    wrapChunks w (fuel + 1) [c] = [c] := by
  have hb : buildLine w [c] = (c, []) := by
    simp [buildLine, takeChunks, Nat.zero_add, hlen]
  simp [wrapChunks, hb, hc]

/-- Claim C9 (amended): `wrap_lines` maps `None`, empty and
whitespace-only input to `[""]`, and an empty paragraph to one blank
line; but a non-empty whitespace-only paragraph (of expanded length at
most the width) contributes exactly one line holding its whitespace
verbatim, not the empty string. -/
theorem c9_wrap_semantics (w : Nat) (t p : String) :
    wrapLines none w = [""]
    ∧ (pyStrip t = "" → wrapLines (some t) w = [""])
    ∧ paraLines "" w = [""]
    ∧ (p ≠ "" → pyStrip p = "" → (expandTabsGo 0 p.data).length ≤ w →
        paraLines p w = [String.mk (expandTabsGo 0 p.data)]) := by
  refine ⟨rfl, fun h => ?_, rfl, fun hp hws hlen => ?_⟩
  · simp [wrapLines, h]
  · have hdata : ∀ c ∈ p.data, isWS c := by
      refine stripL_nil_ws (l := p.data) ?_
      exact congrArg String.data hws
    have hne : p.data ≠ [] := by
      intro hnil
      exact hp (String.ext (hnil.trans rfl))
    have hex := expandTabsGo_ws hdata 0
    have hexne : expandTabsGo 0 p.data ≠ [] := hex.2 hne
    have hchunks : chunksOf (expandTabsGo 0 p.data) = [expandTabsGo 0 p.data] :=
      chunksOf_ws hexne hex.1
    have hwrap : textwrapWrap p w = [String.mk (expandTabsGo 0 p.data)] := by
      show (wrapChunks w ((expandTabsGo 0 p.data).length + 1)
          (chunksOf (expandTabsGo 0 p.data))).map (fun l => String.mk l)
        = [String.mk (expandTabsGo 0 p.data)]
      rw [hchunks, wrapChunks_single w _ _ hlen hexne]
      rfl
    simp [paraLines, hp, hwrap]

theorem c9_wrap_semantics_witness :
    wrapLines (some " \t ") 80 = [""]
    ∧ paraLines "   " 80 = ["   "]
    ∧ wrapLines none 80 = [""] := by
  refine ⟨?_, ?_, (c9_wrap_semantics 80 "" "").1⟩
  · exact (c9_wrap_semantics 80 " \t " "").2.1 (by decide)
  · exact ((c9_wrap_semantics 80 "" "   ").2.2.2 (by decide) (by decide) (by decide)).trans
      (by decide)

/-- Claim C9 counterexample: the whitespace-only paragraph of
`"First\n   \nLast"` contributes the line `"   "` — its whitespace
preserved — not a blank (empty-string) line, exactly as the
repository's own `test_wrap_lines_whitespace_only_paragraph` records. -/
theorem c9_counterexample :
    wrapLines (some "First\n   \nLast") 80 = ["First", "   ", "Last"]
    ∧ "   " ≠ "" := ⟨by decide, by decide⟩

theorem validateStringOrNoneJ_optJ (o : Option String) (n : String) :
    validateStringOrNoneJ (optJ o) n = .ok o := by
  cases o <;> rfl

theorem parseLegacyVars_encode (secName : String) (vs : List RawVar)
    (h : vs.all wfVar = true) :
    parseLegacyVars secName (vs.map encodeVarLegacy) = .ok vs := by
  induction vs with
  | nil => rfl
  | cons v rest ih =>
    simp only [List.all_cons, Bool.and_eq_true] at h
    obtain ⟨hv, hrest⟩ := h
    simp only [wfVar, Bool.and_eq_true, nonBlank, bne_iff_ne, ne_eq, decide_eq_true_eq] at hv
    simp +decide [parseLegacyVars, encodeVarLegacy, validateStringS, hv.1, hv.2, validateDictJ,
      pyGet, List.lookup, validateStringJ, validateStringOrNoneJ_optJ, ih hrest,
      Bind.bind, Except.bind]

theorem parseLegacySections_encode (secs : List RawSection)
    (h : secs.all wfSection = true) :
    parseLegacySections (secs.map encodeSectionLegacy) = .ok secs := by
  induction secs with
  | nil => rfl
  | cons s rest ih =>
    simp only [List.all_cons, Bool.and_eq_true] at h
    obtain ⟨hs, hrest⟩ := h
    simp only [wfSection, Bool.and_eq_true, nonBlank, ne_eq, decide_eq_true_eq] at hs
    obtain ⟨⟨⟨hname, hdesc⟩, hvars⟩, _⟩ := hs
    cases hd : s.description with
    | none => rw [hd] at hdesc; simp at hdesc
    | some d =>
      rw [hd] at hdesc
      simp only [decide_eq_true_eq] at hdesc
      simp +decide [parseLegacySections, encodeSectionLegacy, validateStringS, hname,
        validateDictJ, pyGet, List.lookup, validateStringJ, hd, hdesc,
        parseLegacyVars_encode s.name s.vars hvars, ih hrest, Bind.bind, Except.bind]
      simp only [optJ, if_neg hdesc]
      rw [← hd]

theorem parseProposedVars_encode (idx jdx : Nat) (vs : List RawVar)
    (h : vs.all wfVar = true) :
    parseProposedVars idx jdx (vs.map encodeVarProposed) = .ok vs := by
  induction vs generalizing jdx with
  | nil => rfl
  | cons v rest ih =>
    simp only [List.all_cons, Bool.and_eq_true] at h
    obtain ⟨hv, hrest⟩ := h
    simp only [wfVar, Bool.and_eq_true, nonBlank, ne_eq, decide_eq_true_eq] at hv
    simp +decide [parseProposedVars, encodeVarProposed, validateDictJ, pyGet, List.lookup,
      validateStringJ, hv.1, hv.2, validateStringOrNoneJ_optJ, ih (jdx + 1) hrest,
      Bind.bind, Except.bind]

theorem parseProposedSections_encode (idx : Nat) (secs : List RawSection)
    (h : secs.all wfSection = true) :
    parseProposedSections idx (secs.map encodeSectionProposed) = .ok secs := by
  induction secs generalizing idx with
  | nil => rfl
  | cons s rest ih =>
    simp only [List.all_cons, Bool.and_eq_true] at h
    obtain ⟨hs, hrest⟩ := h
    simp only [wfSection, Bool.and_eq_true, nonBlank, ne_eq, decide_eq_true_eq] at hs
    obtain ⟨⟨⟨hname, hdesc⟩, hvars⟩, _⟩ := hs
    cases hd : s.description with
    | none => rw [hd] at hdesc; simp at hdesc
    | some d =>
      rw [hd] at hdesc
      simp only [decide_eq_true_eq] at hdesc
      simp +decide [parseProposedSections, encodeSectionProposed, validateDictJ, pyGet,
        List.lookup, validateStringJ, hname, hd, hdesc, getVariablesNode,
        parseProposedVars_encode idx 1 s.vars hvars, ih (idx + 1) hrest,
        Bind.bind, Except.bind]
      simp only [optJ, if_neg hdesc]
      rw [← hd]

theorem lookup_encodeLegacy_obj (secs : List RawSection) (k : String) (v : J)
    (h : (secs.map encodeSectionLegacy).lookup k = some v) :
    ∃ fields, v = J.obj fields := by
  induction secs with
  | nil => simp at h
  | cons s rest ih =>
    simp only [List.map_cons, encodeSectionLegacy, List.lookup] at h
    cases hk : (k == s.name) with
    | true =>
      rw [hk] at h
      exact ⟨_, (Option.some.injEq _ _).mp h.symm⟩
    | false =>
      rw [hk] at h
      exact ih h

/-- A legacy-shape document dispatches to the legacy walk (no section
value is a JSON array) and round-trips to exactly its logical content
with no prefix override. -/
theorem adapterParse_encodeLegacy (secs : List RawSection) (h : wfContent secs = true) :
    adapterParse (encodeLegacy secs) = .ok (none, secs) := by
  simp only [wfContent, Bool.and_eq_true] at h
  have hsec := parseLegacySections_encode secs h.1
  unfold adapterParse encodeLegacy
  cases hl : (secs.map encodeSectionLegacy).lookup "sections" with
  | none => simp [hl, hsec, Except.map]
  | some v =>
    obtain ⟨fields, rfl⟩ := lookup_encodeLegacy_obj secs "sections" v hl
    simp [hl, hsec, Except.map]

/-- A proposed-shape document dispatches to the proposed walk and
round-trips to its logical content with its declared prefix override. -/
theorem adapterParse_encodeProposed (secs : List RawSection) (pfx : Option String)
    (h : wfContent secs = true) (hp : pfx = none ∨ pfx = some "HOMELAB") :
    adapterParse (encodeProposed pfx secs) = .ok (pfx, secs) := by
  simp only [wfContent, Bool.and_eq_true] at h
  have hsec := parseProposedSections_encode 1 secs h.1
  rcases hp with rfl | rfl <;>
    simp +decide [adapterParse, encodeProposed, List.lookup, parseProposedTop, pyGet,
      validateStringJ, optJ, hsec, Except.map, Bind.bind, Except.bind]

/-- Claim C6: a legacy-shape and a proposed-shape document with the
same logical content (and an effective prefix of `HOMELAB` on both
sides) normalize to equal `RawSection`/`RawVar` structures, and with
the same resolved values the final `.env` text is byte-identical. -/
theorem c6_shape_independence (secs : List RawSection) (pfx : Option String)
    (resolve : String → String) (hw : wfContent secs = true)
    (hp : pfx = none ∨ pfx = some "HOMELAB") :
    adapterParse (encodeLegacy secs) = .ok (none, secs)
    ∧ adapterParse (encodeProposed pfx secs) = .ok (pfx, secs)
    ∧ fullOutput (encodeLegacy secs) resolve = fullOutput (encodeProposed pfx secs) resolve := by
  refine ⟨adapterParse_encodeLegacy secs hw, adapterParse_encodeProposed secs pfx hw hp, ?_⟩
  unfold fullOutput
  rw [adapterParse_encodeLegacy secs hw, adapterParse_encodeProposed secs pfx hw hp]
  rcases hp with rfl | rfl <;> rfl

set_option maxRecDepth 8192 in
theorem c6_shape_independence_witness :
    wfContent sampleSecs = true
    ∧ adapterParse (encodeLegacy sampleSecs) = .ok (none, sampleSecs)
    ∧ adapterParse (encodeProposed (some "HOMELAB") sampleSecs)
        = .ok (some "HOMELAB", sampleSecs)
    ∧ fullOutput (encodeLegacy sampleSecs) (fun _ => "x")
        = fullOutput (encodeProposed (some "HOMELAB") sampleSecs) (fun _ => "x") := by
  refine ⟨by decide, ?_, ?_, ?_⟩
  · exact (c6_shape_independence sampleSecs (some "HOMELAB") (fun _ => "x") (by decide)
      (Or.inr rfl)).1
  · exact (c6_shape_independence sampleSecs (some "HOMELAB") (fun _ => "x") (by decide)
      (Or.inr rfl)).2.1
  · exact (c6_shape_independence sampleSecs (some "HOMELAB") (fun _ => "x") (by decide)
      (Or.inr rfl)).2.2
